import Mathlib

set_option linter.constructorNameAsVariable false
set_option linter.unusedVariables false

/-!
A shallow embedding of `src/contexttimer/__init__.py` (version 0.2.0).

The module defines a context-manager class `Timer` and a decorator `timer`.
Timestamps and the scaling factor are embedded as rationals.  The pluggable
time source (`self.timer`, default `timeit.default_timer`) is embedded as a
function `ℕ → ℚ` giving the reading returned by its n-th invocation, together
with a call counter `calls` carried by the timer state; each Python call
`self()` reads `timer calls` and bumps the counter.  Attribute lookups that can
raise `AttributeError` (reading `self.start` before `__enter__` has run) are
embedded with `Option`: a `none` result stands for the raised `AttributeError`.
-/

/-- State of a `Timer` instance.  `__init__` stores the time source and the
factor and sets `self.end = None`; it does *not* create a `start` attribute,
so `start = none` here models the attribute being absent. `calls` is the
bookkeeping for the embedded time source (number of readings consumed). -/
structure Timer where
  timer : ℕ → ℚ
  factor : ℚ
  start : Option ℚ
  «end» : Option ℚ
  calls : ℕ

/-- `Timer.__init__(timer=default_timer, factor=1)`: stores both, sets
`end = None`, leaves `start` unset. -/
def Timer.init (timer : ℕ → ℚ) (factor : ℚ) : Timer :=
  { timer := timer, factor := factor, start := none, «end» := none, calls := 0 }

/-- `Timer.__call__`: `return self.timer()` — one reading of the time source. -/
def Timer.call (t : Timer) : ℚ × Timer :=
  (t.timer t.calls, { t with calls := t.calls + 1 })

/-- `Timer.__enter__`: `self.start = self(); return self`. -/
def Timer.enter (t : Timer) : Timer :=
  let (v, t') := t.call
  { t' with start := some v }

/-- `Timer.__exit__`: `self.end = self()` (returns `None`, so a `with`
statement never suppresses an exception raised in its body). -/
def Timer.exit (t : Timer) : Timer :=
  let (v, t') := t.call
  { t' with «end» := some v }

/-- The `Timer.elapsed` property.  If `self.end is None` it evaluates
`(self() - self.start) * self.factor` (the time source is read *first*, then
`self.start` is looked up); otherwise `(self.end - self.start) * self.factor`.
A `none` first component models the `AttributeError` raised when `self.start`
does not exist; the second component is the state after the access. -/
def Timer.elapsed (t : Timer) : Option ℚ × Timer :=
  match t.«end» with
  | none =>
      let (v, t') := t.call
      match t.start with
      | none => (none, t')
      | some s => (some ((v - s) * t.factor), t')
  | some e =>
      match t.start with
      | none => (none, t)
      | some s => (some ((e - s) * t.factor), t)

/-- Rendering a digit `0..9` (the only arguments that occur) as a character. -/
def digitChar (d : ℕ) : Char :=
  if d = 0 then '0' else if d = 1 then '1' else if d = 2 then '2'
  else if d = 3 then '3' else if d = 4 then '4' else if d = 5 then '5'
  else if d = 6 then '6' else if d = 7 then '7' else if d = 8 then '8' else '9'

/-- Decimal digits of `n`, most significant first; `fuel` bounds the
recursion depth (any `fuel > n` gives the same answer). -/
def natDigitsAux : ℕ → ℕ → List Char
  | 0, _ => []
  | fuel + 1, n =>
      if n < 10 then [digitChar n]
      else natDigitsAux fuel (n / 10) ++ [digitChar (n % 10)]

/-- Decimal digits of a natural number, most significant first. -/
def natDigits (n : ℕ) : List Char :=
  natDigitsAux (n + 1) n

/-- The last three decimal digits of a `%.3f` rendering, zero padded. -/
def pad3 (r : ℕ) : List Char :=
  if r < 10 then '0' :: '0' :: natDigits r
  else if r < 100 then '0' :: natDigits r
  else natDigits r

/-- Model of the `'%.3f' % q` fixed-point format used by `Timer.__str__` and
by the decorator's report: round to the nearest thousandth and print with
exactly three digits after the decimal point. -/
def fmt3 (q : ℚ) : String :=
  let n : ℤ := round (q * 1000)
  ((if n < 0 then "-" else "") ++ String.mk (natDigits (n.natAbs / 1000))) ++
    "." ++ String.mk (pad3 (n.natAbs % 1000))

/-- `Timer.__str__`: `'%.3f' % (self.elapsed)` — formats the `elapsed`
property; a `none` first component models the propagated `AttributeError`. -/
def Timer.str (t : Timer) : Option String × Timer :=
  let (v, t') := t.elapsed
  (v.map fmt3, t')

/-- Python `with Timer(...) as t: body` semantics for the timer: run
`__enter__`, run the body (which may finish with a value or raise), then run
`__exit__` on whatever state the body left; since `Timer.__exit__` returns
`None`, a raised exception propagates unchanged after `__exit__` has run. -/
def withTimer {E A : Type} (t : Timer) (body : Timer → Except E A × Timer) :
    Except E A × Timer :=
  let t1 := t.enter
  let (r, t2) := body t1
  (r, t2.exit)

/-- A Python callable as the decorator sees it: its `__name__` and its
behavior (which may raise an exception of type `E`). -/
structure PyFunc (A B E : Type) where
  name : String
  call : A → Except E B

/-- A value appearing at the decorator's call site: a plain callable, a
logger object (not callable, has a `debug` method), or `None`. -/
inductive PyVal (A B E : Type)
  | func (f : PyFunc A B E)
  | logger
  | none_

/-- `isinstance(x, collections.Callable)` for the embedded values. -/
def PyVal.isCallable {A B E : Type} : PyVal A B E → Bool
  | .func _ => true
  | _ => false

/-- An exception escaping the decorator's wrapper: either the wrapped
callable's own exception or an `AttributeError` raised by the wrapper. -/
inductive PyErr (E : Type)
  | user (e : E)
  | attributeError

/-- One observable emission of the wrapper: a `logger.debug(template, name,
elapsed)` call (substitution values recorded; the template is the fixed
`"function %s execution time: %.3f"`), or a `print` to standard output. -/
inductive Output
  | debug (fname : String) (elapsed : ℚ)
  | printed (s : String)

/-- The message a recorded emission puts on its channel once the logging
layer renders the `%s`/`%.3f` template. -/
def Output.render : Output → String
  | .debug fname el => "function " ++ fname ++ " execution time: " ++ fmt3 el
  | .printed s => s

/-- The keyword arguments forwarded to `Timer(**timer_kwargs)`: an optional
`timer=` time source and an optional `factor=`. -/
structure TimerKwargs where
  timer : Option (ℕ → ℚ)
  factor : Option ℚ

/-- `Timer(**timer_kwargs)` with the constructor defaults
(`timer=default_timer`, `factor=1`); `default_timer` is the ambient default
time source. -/
def Timer.ofKwargs (kw : TimerKwargs) (default_timer : ℕ → ℚ) : Timer :=
  Timer.init (kw.timer.getD default_timer) (kw.factor.getD 1)

/-- Body of `wrapped(*args, **kwargs)` (lines 97-104): run `f` inside
`with Timer(**timer_kwargs) as t`, then — only if the block completed
normally — report `t.elapsed` through `logger.debug` when `logger` is truthy
and through `print` (note the trailing space in the source's format string)
otherwise, and return `f`'s result.  A truthy `logger` that is a bare
callable has no `debug` attribute, so that lookup raises `AttributeError`. -/
def wrapped {A B E : Type} (default_timer : ℕ → ℚ) (logger : PyVal A B E)
    (timer_kwargs : TimerKwargs) (f : PyFunc A B E) (args : A) :
    Except (PyErr E) B × List Output × Timer :=
  let t0 := Timer.ofKwargs timer_kwargs default_timer
  let (r, t) := withTimer t0 (fun t1 => (f.call args, t1))
  match r with
  | .error e => (.error (.user e), [], t)
  | .ok out =>
      let (v, t') := t.elapsed
      match v with
      | none => (.error .attributeError, [], t')
      | some el =>
          match logger with
          | .none_ =>
              (.ok out,
               [.printed ("function " ++ f.name ++ " execution time: " ++
                  fmt3 el ++ " ")], t')
          | .logger => (.ok out, [.debug f.name el], t')
          | .func _ => (.error .attributeError, [], t')

/-- The callable returned by `wrapped_f(f)`: `functools.wraps(f)` copies
`f.__name__` onto it, and invoking it runs `wrapped` above. -/
structure Wrapper (A B E : Type) where
  name : String
  run : (ℕ → ℚ) → A → Except (PyErr E) B × List Output × Timer

/-- `wrapped_f` (lines 95-105): builds the wrapper for a target callable,
closing over `logger` and `timer_kwargs`. -/
def wrapped_f {A B E : Type} (logger : PyVal A B E) (timer_kwargs : TimerKwargs)
    (f : PyFunc A B E) : Wrapper A B E :=
  { name := f.name,
    run := fun default_timer args => wrapped default_timer logger timer_kwargs f args }

/-- The value `timer(...)` returns: either the finished wrapper (bare-form
branch, `wrapped_f(func_or_func_args[0])`) or the closure `wrapped_f` itself,
awaiting the target callable.  The closure's environment stores `logger`, the
leftover positional arguments (`timer_args`, assigned on line 93 but never
used afterwards) and the keyword arguments. -/
inductive TimerRet (A B E : Type)
  | wrapped (w : Wrapper A B E)
  | factory (logger : PyVal A B E) (timer_args : List (PyVal A B E))
      (timer_kwargs : TimerKwargs)

/-- Whether `timer(...)` returned a finished wrapper (bare-form branch). -/
def TimerRet.isWrapped {A B E : Type} : TimerRet A B E → Bool
  | .wrapped _ => true
  | .factory _ _ _ => false

/-- Calling the returned `wrapped_f` closure on the target callable. -/
def TimerRet.callWith {A B E : Type} :
    TimerRet A B E → PyFunc A B E → Option (Wrapper A B E)
  | .factory logger _ kwargs, f => some (wrapped_f logger kwargs f)
  | .wrapped _, _ => none

/-- `timer` (lines 85-110) after Python has bound the parameters
`(logger=None, *func_or_func_args, **kwargs)`: if exactly one leftover
positional argument was supplied and it is callable, wrap it immediately;
otherwise return the `wrapped_f` closure. -/
def timer {A B E : Type} (logger : PyVal A B E)
    (func_or_func_args : List (PyVal A B E)) (kwargs : TimerKwargs) :
    TimerRet A B E :=
  match func_or_func_args with
  | [PyVal.func f] => .wrapped (wrapped_f logger kwargs f)
  | _ => .factory logger func_or_func_args kwargs

/-- A call `timer(*pos, **kwargs)` with no `logger=` keyword: Python binds
the first positional argument (if any) to `logger` and the rest to
`func_or_func_args`.  In particular bare decoration `@timer` is
`timerPos [f] ...` and binds `f` to `logger`. -/
def timerPos {A B E : Type} (pos : List (PyVal A B E)) (kwargs : TimerKwargs) :
    TimerRet A B E :=
  match pos with
  | [] => timer .none_ [] kwargs
  | l :: rest => timer l rest kwargs

/-- One Python-level operation on a timer object. -/
inductive TOp
  | enter
  | exit
  | elapsed

/-- State reached after performing one operation (for a failing `elapsed`
access the `AttributeError` propagates; the state is the one left behind). -/
def Timer.stepOp (t : Timer) : TOp → Timer
  | .enter => t.enter
  | .exit => t.exit
  | .elapsed => t.elapsed.2

/-- State reached after a sequence of operations. -/
def Timer.runOps : Timer → List TOp → Timer
  | t, [] => t
  | t, op :: ops => (t.stepOp op).runOps ops

/-- `true` iff no `exit` occurs before the first `enter` — i.e. every release
in the sequence is preceded by an acquisition, as in `with`-statement use. -/
def exitsGuarded : List TOp → Bool
  | [] => true
  | TOp.exit :: _ => false
  | TOp.enter :: _ => true
  | TOp.elapsed :: ops => exitsGuarded ops

/-- The identity time source: reading `n` on the n-th call. -/
def cid : ℕ → ℚ := fun n => (n : ℚ)

/-- A time source reading `0` then `0.002` (= 1/500). -/
def c002 : ℕ → ℚ := fun n => if n = 0 then 0 else 1 / 500

/-- A time source reading `0.0` then `2.5`. -/
def c25 : ℕ → ℚ := fun n => if n = 0 then 0 else 5 / 2

/-- A sample callable: adds one to its argument. -/
def demoF : PyFunc ℚ ℚ String :=
  { name := "demo", call := fun x => Except.ok (x + 1) }

/-- A sample no-op callable. -/
def noopF : PyFunc Unit Unit Unit :=
  { name := "noop", call := fun _ => Except.ok () }

/-- A sample callable that always raises. -/
def boomF : PyFunc Unit Unit String :=
  { name := "boom", call := fun _ => Except.error "boom" }

/-! ## Helper lemmas about the decimal formatter -/

theorem digitChar_isDigit (d : ℕ) : (digitChar d).isDigit = true := by
  unfold digitChar
  repeat' split
  all_goals decide

theorem digitChar_ne_dot (d : ℕ) : digitChar d ≠ '.' := by
  unfold digitChar
  repeat' split
  all_goals decide

theorem natDigitsAux_fuel (fuel fuel' n : ℕ) (h : n < fuel) (h' : n < fuel') :
    natDigitsAux fuel n = natDigitsAux fuel' n := by
  induction fuel generalizing fuel' n with
  | zero => omega
  | succ fuel ih =>
    cases fuel' with
    | zero => omega
    | succ fuel' =>
      unfold natDigitsAux
      by_cases h10 : n < 10
      · simp [h10]
      · have hlt : n / 10 < n := Nat.div_lt_self (by omega) (by norm_num)
        simp only [h10, if_false]
        rw [ih fuel' (n / 10) (by omega) (by omega)]

theorem natDigitsAux_eq (fuel n : ℕ) (h : n < fuel) :
    natDigitsAux fuel n = natDigits n :=
  natDigitsAux_fuel fuel (n + 1) n h (Nat.lt_succ_self n)

theorem natDigits_lt10 (n : ℕ) (h : n < 10) : natDigits n = [digitChar n] := by
  unfold natDigits natDigitsAux
  simp [h]

theorem natDigits_ge10 (n : ℕ) (h : 10 ≤ n) :
    natDigits n = natDigits (n / 10) ++ [digitChar (n % 10)] := by
  have hlt : n / 10 < n := Nat.div_lt_self (by omega) (by norm_num)
  conv_lhs => unfold natDigits natDigitsAux
  simp only [Nat.not_lt.mpr h, if_false]
  rw [natDigitsAux_eq n (n / 10) (by omega)]

theorem natDigits_mem_isDigit (n : ℕ) :
    ∀ c ∈ natDigits n, c.isDigit = true := by
  induction n using Nat.strong_induction_on with
  | _ n ih =>
    by_cases h : n < 10
    · rw [natDigits_lt10 n h]
      intro c hc
      rw [List.mem_singleton.mp hc]
      exact digitChar_isDigit n
    · rw [natDigits_ge10 n (by omega)]
      intro c hc
      rcases List.mem_append.mp hc with hc | hc
      · exact ih (n / 10) (Nat.div_lt_self (by omega) (by norm_num)) c hc
      · rw [List.mem_singleton.mp hc]
        exact digitChar_isDigit _

theorem natDigits_length1 (n : ℕ) (h : n < 10) : (natDigits n).length = 1 := by
  rw [natDigits_lt10 n h]
  rfl

theorem natDigits_length2 (n : ℕ) (h1 : 10 ≤ n) (h2 : n < 100) :
    (natDigits n).length = 2 := by
  rw [natDigits_ge10 n h1, List.length_append,
    natDigits_length1 (n / 10) (Nat.div_lt_of_lt_mul (by omega))]
  rfl

theorem natDigits_length3 (n : ℕ) (h1 : 100 ≤ n) (h2 : n < 1000) :
    (natDigits n).length = 3 := by
  rw [natDigits_ge10 n (by omega), List.length_append,
    natDigits_length2 (n / 10) ((Nat.le_div_iff_mul_le (by norm_num)).2 (by omega))
      (Nat.div_lt_of_lt_mul (by omega))]
  rfl

theorem pad3_length (r : ℕ) (h : r < 1000) : (pad3 r).length = 3 := by
  unfold pad3
  by_cases h10 : r < 10
  · simp [h10, natDigits_length1 r h10]
  · by_cases h100 : r < 100
    · simp [h10, h100, natDigits_length2 r (by omega) h100]
    · simp [h10, h100, natDigits_length3 r (by omega) h]

theorem pad3_mem_isDigit (r : ℕ) : ∀ c ∈ pad3 r, c.isDigit = true := by
  intro c hc
  unfold pad3 at hc
  split at hc
  · simp only [List.mem_cons] at hc
    rcases hc with rfl | rfl | hc
    · decide
    · decide
    · exact natDigits_mem_isDigit _ c hc
  · split at hc
    · simp only [List.mem_cons] at hc
      rcases hc with rfl | hc
      · decide
      · exact natDigits_mem_isDigit _ c hc
    · exact natDigits_mem_isDigit _ c hc

theorem isDigit_ne_dot (c : Char) (h : c.isDigit = true) : c ≠ '.' := by
  intro hc
  rw [hc] at h
  exact absurd h (by decide)

theorem fmt3_decomp (q : ℚ) :
    ∃ a b : String, fmt3 q = a ++ "." ++ b ∧ b.length = 3 ∧
      (∀ c ∈ b.data, c.isDigit = true) ∧ (∀ c ∈ a.data, c ≠ '.') := by
  refine ⟨(if round (q * 1000) < 0 then "-" else "") ++
      String.mk (natDigits ((round (q * 1000)).natAbs / 1000)),
    String.mk (pad3 ((round (q * 1000)).natAbs % 1000)), rfl, ?_, ?_, ?_⟩
  · exact pad3_length _ (Nat.mod_lt _ (by norm_num))
  · exact pad3_mem_isDigit _
  · intro c hc
    rw [String.data_append] at hc
    rcases List.mem_append.mp hc with hc | hc
    · split at hc
      · simp only [show ("-" : String).data = ['-'] from rfl,
          List.mem_singleton] at hc
        rw [hc]
        decide
      · exact absurd (by exact hc) (List.not_mem_nil c)
    · exact isDigit_ne_dot c (natDigits_mem_isDigit _ c hc)

theorem fmt3_two : fmt3 (2 : ℚ) = "2.000" := by
  have h : (2 : ℚ) * 1000 = 2000 := by norm_num
  simp only [fmt3, h, round_ofNat]
  rfl

theorem fmt3_five_halves : fmt3 ((5 : ℚ) / 2) = "2.500" := by
  have h : ((5 : ℚ) / 2) * 1000 = 2500 := by norm_num
  simp only [fmt3, h, round_ofNat]
  rfl

/-! ## Helper lemmas about the timer state -/

theorem Timer.enter_start (t : Timer) : t.enter.start = some (t.timer t.calls) := rfl

theorem Timer.enter_end (t : Timer) : t.enter.«end» = t.«end» := rfl

theorem Timer.exit_end (t : Timer) : t.exit.«end» = some (t.timer t.calls) := rfl

theorem Timer.exit_start (t : Timer) : t.exit.start = t.start := rfl

theorem Timer.elapsed_snd_start (t : Timer) : (t.elapsed).2.start = t.start := by
  unfold Timer.elapsed Timer.call
  cases h : t.«end» <;> cases hs : t.start <;> simp [h, hs]

theorem Timer.elapsed_snd_end (t : Timer) : (t.elapsed).2.«end» = t.«end» := by
  unfold Timer.elapsed Timer.call
  cases h : t.«end» <;> cases hs : t.start <;> simp [h, hs]

/-- Evaluation of `wrapped` when the wrapped callable returns normally. -/
theorem wrapped_ok {A B E : Type} (dflt : ℕ → ℚ) (logger : PyVal A B E)
    (kw : TimerKwargs) (f : PyFunc A B E) (args : A) (b : B)
    (hf : f.call args = .ok b) :
    wrapped dflt logger kw f args =
      (match logger with
       | .func _ => (.error .attributeError, [],
           (Timer.ofKwargs kw dflt).enter.exit)
       | .logger => (.ok b,
           [.debug f.name (((kw.timer.getD dflt) 1 - (kw.timer.getD dflt) 0) *
             kw.factor.getD 1)],
           (Timer.ofKwargs kw dflt).enter.exit)
       | .none_ => (.ok b,
           [.printed ("function " ++ f.name ++ " execution time: " ++
             fmt3 (((kw.timer.getD dflt) 1 - (kw.timer.getD dflt) 0) *
               kw.factor.getD 1) ++ " ")],
           (Timer.ofKwargs kw dflt).enter.exit)) := by
  cases logger <;>
    simp [wrapped, withTimer, Timer.ofKwargs, Timer.init, Timer.enter,
      Timer.exit, Timer.call, Timer.elapsed, hf]

theorem Timer.stepOp_start_isSome (t : Timer) (op : TOp)
    (h : t.start.isSome = true) : (t.stepOp op).start.isSome = true := by
  cases op with
  | enter => simp [Timer.stepOp, Timer.enter, Timer.call]
  | exit => simpa [Timer.stepOp, Timer.exit_start] using h
  | elapsed => simpa [Timer.stepOp, Timer.elapsed_snd_start] using h

theorem Timer.runOps_start_isSome (t : Timer) (ops : List TOp)
    (h : t.start.isSome = true) : (t.runOps ops).start.isSome = true := by
  induction ops generalizing t with
  | nil => exact h
  | cons op ops ih => exact ih _ (Timer.stepOp_start_isSome t op h)

theorem Timer.runOps_guarded (ops : List TOp) (t : Timer)
    (hg : exitsGuarded ops = true) (he : t.«end» = none) :
    ((t.runOps ops).«end»).isSome = true → ((t.runOps ops).start).isSome = true := by
  induction ops generalizing t with
  | nil =>
    intro h
    simp only [Timer.runOps] at h
    rw [he] at h
    exact absurd h (by decide)
  | cons op ops ih =>
    cases op with
    | enter =>
      intro _
      exact Timer.runOps_start_isSome _ ops
        (by simp [Timer.stepOp, Timer.enter, Timer.call])
    | exit => exact absurd hg (by simp [exitsGuarded])
    | elapsed =>
      exact ih (t.stepOp TOp.elapsed) hg
        (by simpa [Timer.stepOp, Timer.elapsed_snd_end] using he)

/-- C1: once a `Timer` has been entered, `with`-statement release sets the
end timestamp on every exit path — for an arbitrary block body, normal or
raising, that has not itself released the timer, the final state's `end` is
set (to the single time-source reading taken at release), and the body's
outcome, an exception included, is returned unchanged by the scope. -/
theorem withTimer_releases_and_propagates {E A : Type} (t : Timer)
    (body : Timer → Except E A × Timer)
    (hb : (body t.enter).2.«end» = none) :
    (withTimer t body).1 = (body t.enter).1 ∧
    (withTimer t body).2.«end» =
      some ((body t.enter).2.timer ((body t.enter).2.calls)) ∧
    (body t.enter).2.«end» ≠ (withTimer t body).2.«end» := by
  unfold withTimer
  rcases hbody : body t.enter with ⟨r, t2⟩
  rw [hbody] at hb
  have hb2 : t2.«end» = none := hb
  simp [hbody, Timer.exit_end, hb2]

theorem withTimer_releases_and_propagates_wit :
    (withTimer (Timer.init c25 1)
        (fun t1 => ((Except.error "boom" : Except String Unit), t1))).1 =
      Except.error "boom" ∧
    (withTimer (Timer.init c25 1)
        (fun t1 => ((Except.error "boom" : Except String Unit), t1))).2.«end» =
      some (5 / 2) := by
  have h := withTimer_releases_and_propagates (Timer.init c25 1)
    (fun t1 => ((Except.error "boom" : Except String Unit), t1)) rfl
  exact ⟨h.1, h.2.1⟩

/-- C9 counterexample: the claim quantifies over *every* sequence of
enter/exit/elapsed operations, but `__exit__` can be invoked on a fresh timer
with no preceding `__enter__`: the sequence `[exit]` sets the end timestamp
while the start timestamp was never set. -/
theorem exit_without_enter_cex :
    ((Timer.init c25 1).runOps [TOp.exit]).«end» = some 0 ∧
    ((Timer.init c25 1).runOps [TOp.exit]).start = none := ⟨rfl, rfl⟩

/-- C9 (amended): over every sequence of enter/exit/elapsed operations in
which no release precedes the first acquisition (as in `with`-statement
usage), if the end timestamp is set then the start timestamp is set; and the
end timestamp is modified only by release — neither acquisition nor an
elapsed read touches it — and release sets it to the reading it takes, so a
sequence with a single release sets it exactly once, at that release. -/
theorem guarded_ops_invariant (c : ℕ → ℚ) (fac : ℚ) (ops : List TOp)
    (hg : exitsGuarded ops = true) :
    (((Timer.init c fac).runOps ops).«end».isSome = true →
      ((Timer.init c fac).runOps ops).start.isSome = true) ∧
    (∀ (t : Timer) (op : TOp), op ≠ TOp.exit → (t.stepOp op).«end» = t.«end») ∧
    (∀ t : Timer, (t.stepOp TOp.exit).«end» = some (t.timer t.calls)) := by
  refine ⟨Timer.runOps_guarded ops (Timer.init c fac) hg rfl, ?_, ?_⟩
  · intro t op hop
    cases op with
    | enter => exact Timer.enter_end t
    | exit => exact absurd rfl hop
    | elapsed => exact Timer.elapsed_snd_end t
  · intro t
    exact Timer.exit_end t

theorem guarded_ops_invariant_wit :
    (((Timer.init c25 1).runOps [TOp.enter, TOp.exit]).«end».isSome = true →
      ((Timer.init c25 1).runOps [TOp.enter, TOp.exit]).start.isSome = true) ∧
    ((Timer.init c25 1).stepOp TOp.enter).«end» = (Timer.init c25 1).«end» ∧
    ((Timer.init c25 1).stepOp TOp.exit).«end» = some (c25 0) := by
  have h := guarded_ops_invariant c25 1 [TOp.enter, TOp.exit] rfl
  exact ⟨h.1, h.2.1 (Timer.init c25 1) TOp.enter (fun hop => TOp.noConfusion hop), h.2.2 (Timer.init c25 1)⟩

/-- C10 counterexample: on a freshly constructed `Timer`, calling release
(`__exit__`) before acquisition does not fail with an attribute error — it
succeeds and records the end timestamp (it reads the clock, never `start`). -/
theorem fresh_release_succeeds_cex :
    ((Timer.init c25 1).exit).«end» = some 0 ∧
    ((Timer.init c25 1).exit).start = none := ⟨rfl, rfl⟩

/-- C10 (amended): a freshly constructed `Timer` has `end` initialized to
the unset value and no `start` attribute; accessing `elapsed` or the string
conversion before acquisition fails with an attribute error rather than
returning a value, while calling release before acquisition succeeds and
records the end timestamp (after which `elapsed` still fails). -/
theorem fresh_timer_state (c : ℕ → ℚ) (fac : ℚ) :
    (Timer.init c fac).«end» = none ∧
    (Timer.init c fac).start = none ∧
    ((Timer.init c fac).elapsed).1 = none ∧
    ((Timer.init c fac).str).1 = none ∧
    ((Timer.init c fac).exit).«end» = some (c 0) ∧
    (((Timer.init c fac).exit).elapsed).1 = none := by
  refine ⟨rfl, rfl, ?_, ?_, rfl, ?_⟩ <;>
    simp [Timer.init, Timer.elapsed, Timer.str, Timer.exit, Timer.call]

/-- C4: for a `Timer` whose `start` is set, `elapsed` returns
`(now() - start) * factor` when `end` is unset — a live value taking a fresh
time-source reading on each access — and the fixed `(end - start) * factor`
when `end` is set; in the latter case the access leaves the state unchanged,
so repeated reads after release return the identical value. -/
theorem elapsed_live_and_frozen (t : Timer) (s : ℚ) (hs : t.start = some s) :
    (t.«end» = none →
      t.elapsed = (some ((t.timer t.calls - s) * t.factor),
        { t with calls := t.calls + 1 })) ∧
    (∀ e : ℚ, t.«end» = some e →
      t.elapsed = (some ((e - s) * t.factor), t) ∧
      ((t.elapsed).2).elapsed.1 = (t.elapsed).1) := by
  constructor
  · intro he
    simp [Timer.elapsed, Timer.call, he, hs]
  · intro e he
    have h1 : t.elapsed = (some ((e - s) * t.factor), t) := by
      simp [Timer.elapsed, he, hs]
    refine ⟨h1, ?_⟩
    rw [h1]
    show t.elapsed.1 = some ((e - s) * t.factor)
    rw [h1]

theorem elapsed_live_and_frozen_wit :
    ((Timer.init c25 1).enter.elapsed =
      (some ((c25 1 - 0) * 1), { (Timer.init c25 1).enter with calls := 2 })) ∧
    ((Timer.init c25 1).enter.exit.elapsed =
      (some ((5 / 2 - 0) * 1), (Timer.init c25 1).enter.exit)) := by
  have h1 := (elapsed_live_and_frozen ((Timer.init c25 1).enter) 0 rfl).1 rfl
  have h2 := (elapsed_live_and_frozen ((Timer.init c25 1).enter.exit) 0 rfl).2
    (5 / 2) rfl
  exact ⟨h1, h2.1⟩

/-- C5: a `Timer` acquired when its time source reads `a` and released when
it reads `b` reports `elapsed = (b - a) * factor`; with factor 1000 and a
start/end difference of 0.002 the 3-decimal rendering is "2.000"; and a
decorated no-op with factor 1 over source readings 0.0 then 2.5 reports
2.500. -/
theorem elapsed_eq_difference_times_factor (c : ℕ → ℚ) (a b fac : ℚ)
    (hab : a ≤ b) (h0 : c 0 = a) (h1 : c 1 = b) :
    ((Timer.init c fac).enter.exit).elapsed.1 = some ((b - a) * fac) ∧
    ((Timer.init c002 1000).enter.exit).str.1 = some "2.000" ∧
    (wrapped c25 (PyVal.none_ : PyVal Unit Unit Unit) ⟨some c25, some 1⟩
        noopF ()).2.1 =
      [Output.printed "function noop execution time: 2.500 "] := by
  refine ⟨?_, ?_, ?_⟩
  · simp [Timer.init, Timer.enter, Timer.exit, Timer.call, Timer.elapsed, h0, h1]
  · have hfmt : ∀ q : ℚ, q = 2 → fmt3 q = "2.000" := fun q hq => by
      rw [hq, fmt3_two]
    simp only [Timer.str, Timer.init, Timer.enter, Timer.exit, Timer.call,
      Timer.elapsed, Option.map_some']
    rw [hfmt _ (by norm_num [c002])]
  · rw [wrapped_ok c25 (PyVal.none_ : PyVal Unit Unit Unit) ⟨some c25, some 1⟩
      noopF () () rfl]
    have hfmt : ∀ q : ℚ, q = 5 / 2 → fmt3 q = "2.500" := fun q hq => by
      rw [hq, fmt3_five_halves]
    simp only [Option.getD]
    rw [hfmt _ (by norm_num [c25])]
    rfl

theorem elapsed_eq_difference_times_factor_wit :
    ((Timer.init c25 1).enter.exit).elapsed.1 = some (((5 : ℚ) / 2 - 0) * 1) ∧
    ((Timer.init c002 1000).enter.exit).str.1 = some "2.000" ∧
    (wrapped c25 (PyVal.none_ : PyVal Unit Unit Unit) ⟨some c25, some 1⟩
        noopF ()).2.1 =
      [Output.printed "function noop execution time: 2.500 "] := by
  have h := elapsed_eq_difference_times_factor c25 0 (5 / 2) 1 (by norm_num)
    rfl rfl
  exact ⟨h.1, h.2.1, h.2.2⟩

/-- C8: whenever `elapsed` is defined, the default string conversion renders
it with `fmt3`, whose output always has exactly 3 digits after the (unique)
decimal point regardless of magnitude or factor; an elapsed value of 2.0
renders as "2.000". -/
theorem str_three_decimals (t : Timer) (v : ℚ) (t2 : Timer)
    (h : t.elapsed = (some v, t2)) :
    t.str = (some (fmt3 v), t2) ∧
    (∃ a b : String, fmt3 v = a ++ "." ++ b ∧ b.length = 3 ∧
      (∀ c ∈ b.data, c.isDigit = true) ∧ (∀ c ∈ a.data, c ≠ '.')) ∧
    fmt3 2 = "2.000" := by
  refine ⟨?_, fmt3_decomp v, fmt3_two⟩
  simp [Timer.str, h]

theorem str_three_decimals_wit :
    (Timer.init c002 1000).enter.exit.str =
      (some (fmt3 (((1 : ℚ) / 500 - 0) * 1000)),
        (Timer.init c002 1000).enter.exit) ∧
    (∃ a b : String, fmt3 (((1 : ℚ) / 500 - 0) * 1000) = a ++ "." ++ b ∧
      b.length = 3 ∧ (∀ c ∈ b.data, c.isDigit = true) ∧
      (∀ c ∈ a.data, c ≠ '.')) ∧
    fmt3 2 = "2.000" :=
  str_three_decimals ((Timer.init c002 1000).enter.exit)
    (((1 : ℚ) / 500 - 0) * 1000) ((Timer.init c002 1000).enter.exit) rfl

/-- C2 counterexample: bare decoration — applying `timer` directly to a
callable with no configuration arguments — binds the callable to the
`logger` parameter, leaving `func_or_func_args` empty, so `timer` returns
the `wrapped_f` factory still awaiting a target callable rather than a
wrapper of the decorated function. -/
theorem bare_decoration_returns_factory_cex :
    timerPos [PyVal.func demoF] ⟨none, none⟩ =
      TimerRet.factory (PyVal.func demoF) [] ⟨none, none⟩ ∧
    (timerPos [PyVal.func demoF] ⟨none, none⟩).isWrapped = false := ⟨rfl, rfl⟩

/-- C2 (amended): configured decoration — calling the decorator with
configuration only (no leftover positionals) and applying the returned
factory to `f` — produces a wrapper that (a) preserves `f`'s name,
(b) returns `f`'s original return value unchanged, and (c) forwards the
arguments to `f` unchanged.  Bare decoration does not: it binds `f` to the
`logger` parameter and returns the factory unapplied (see counterexample). -/
theorem configured_decoration_ok {A B E : Type} (logger : PyVal A B E)
    (kw : TimerKwargs) (f : PyFunc A B E)
    (hlog : logger.isCallable = false) :
    timer logger [] kw = .factory logger [] kw ∧
    (timer logger [] kw).callWith f = some (wrapped_f logger kw f) ∧
    (wrapped_f logger kw f).name = f.name ∧
    (∀ (dflt : ℕ → ℚ) (args : A) (b : B), f.call args = .ok b →
      ((wrapped_f logger kw f).run dflt args).1 = .ok b) := by
  refine ⟨rfl, rfl, rfl, ?_⟩
  intro dflt args b hf
  have h := wrapped_ok dflt logger kw f args b hf
  cases logger with
  | func g => exact absurd hlog (by simp [PyVal.isCallable])
  | logger => simp [wrapped_f, h]
  | none_ => simp [wrapped_f, h]

theorem configured_decoration_ok_wit :
    timer (PyVal.none_ : PyVal ℚ ℚ String) [] ⟨none, none⟩ =
      .factory PyVal.none_ [] ⟨none, none⟩ ∧
    (timer (PyVal.none_ : PyVal ℚ ℚ String) [] ⟨none, none⟩).callWith demoF =
      some (wrapped_f PyVal.none_ ⟨none, none⟩ demoF) ∧
    (wrapped_f (PyVal.none_ : PyVal ℚ ℚ String) ⟨none, none⟩ demoF).name =
      demoF.name ∧
    ((wrapped_f (PyVal.none_ : PyVal ℚ ℚ String) ⟨none, none⟩ demoF).run
        c25 3).1 = .ok 4 := by
  have h := configured_decoration_ok (PyVal.none_ : PyVal ℚ ℚ String)
    ⟨none, none⟩ demoF rfl
  exact ⟨h.1, h.2.1, h.2.2.1, h.2.2.2 c25 3 4 (by norm_num [demoF])⟩

/-- C3 counterexample: when the wrapped callable raises, the code inside
`wrapped` skips the report — the lines after the `with` block never run —
so no elapsed-time report is emitted before the failure propagates
(the timer is nevertheless released: its end timestamp is set). -/
theorem raising_call_skips_report_cex :
    (wrapped c25 (PyVal.none_ : PyVal Unit Unit String) ⟨some c25, some 1⟩
        boomF ()).2.1 = [] ∧
    (wrapped c25 (PyVal.none_ : PyVal Unit Unit String) ⟨some c25, some 1⟩
        boomF ()).1 = .error (.user "boom") ∧
    (wrapped c25 (PyVal.none_ : PyVal Unit Unit String) ⟨some c25, some 1⟩
        boomF ()).2.2.«end» = some (5 / 2) := ⟨rfl, rfl, rfl⟩

/-- C3 (amended): if the wrapped callable raises, the timer is still
released (the end timestamp is set, to the reading taken at release), but
no elapsed-time report is emitted — the report lines after the `with` block
are skipped — and the failure propagates unchanged to the caller. -/
theorem raising_call_releases_without_report {A B E : Type}
    (dflt : ℕ → ℚ) (logger : PyVal A B E) (kw : TimerKwargs)
    (f : PyFunc A B E) (args : A) (e : E) (hf : f.call args = .error e) :
    (wrapped dflt logger kw f args).1 = .error (.user e) ∧
    (wrapped dflt logger kw f args).2.1 = [] ∧
    (wrapped dflt logger kw f args).2.2.«end» =
      some ((kw.timer.getD dflt) 1) := by
  refine ⟨?_, ?_, ?_⟩ <;>
    simp [wrapped, withTimer, Timer.ofKwargs, Timer.init, Timer.enter,
      Timer.exit, Timer.call, hf]

theorem raising_call_releases_without_report_wit :
    (wrapped cid (PyVal.logger : PyVal Unit Unit String) ⟨none, some 1000⟩
        boomF ()).1 = .error (.user "boom") ∧
    (wrapped cid (PyVal.logger : PyVal Unit Unit String) ⟨none, some 1000⟩
        boomF ()).2.1 = [] ∧
    (wrapped cid (PyVal.logger : PyVal Unit Unit String) ⟨none, some 1000⟩
        boomF ()).2.2.«end» = some (cid 1) := by
  have h := raising_call_releases_without_report cid
    (PyVal.logger : PyVal Unit Unit String) ⟨none, some 1000⟩ boomF () "boom"
    rfl
  exact ⟨h.1, h.2.1, h.2.2⟩

/-- C6 counterexample: with no reporting sink, the message written to the
default output channel is not the claimed
`"function <name> execution time: <elapsed formatted to 3 decimals>"` —
the source's `print` format string carries a trailing space. -/
theorem print_has_trailing_space_cex :
    (wrapped c25 (PyVal.none_ : PyVal Unit Unit Unit) ⟨some c25, some 1⟩
        noopF ()).2.1 =
      [Output.printed ("function noop execution time: 2.500" ++ " ")] ∧
    "function noop execution time: 2.500" ++ " " ≠
      "function noop execution time: 2.500" := by
  constructor
  · rw [wrapped_ok c25 (PyVal.none_ : PyVal Unit Unit Unit) ⟨some c25, some 1⟩
      noopF () () rfl]
    have hfmt : ∀ q : ℚ, q = 5 / 2 → fmt3 q = "2.500" := fun q hq => by
      rw [hq, fmt3_five_halves]
    simp only [Option.getD]
    rw [hfmt _ (by norm_num [c25])]
    rfl
  · decide

/-- C6 (amended): on an invocation of a wrapped callable that returns
normally, if a logger was supplied the report is routed through its `debug`
method with the function's name and the elapsed value (formatted to 3
decimals by the fixed template) as the two substitution values, and nothing
is written to the default output channel; if no logger was supplied, the
same message — with a trailing space appended — is written to the default
output channel. -/
theorem report_routing {A B E : Type} (dflt : ℕ → ℚ) (kw : TimerKwargs)
    (f : PyFunc A B E) (args : A) (b : B) (hf : f.call args = .ok b) :
    (wrapped dflt (PyVal.logger : PyVal A B E) kw f args).2.1 =
      [Output.debug f.name
        (((kw.timer.getD dflt) 1 - (kw.timer.getD dflt) 0) *
          kw.factor.getD 1)] ∧
    (∀ s : String,
      Output.printed s ∉ (wrapped dflt (PyVal.logger : PyVal A B E) kw f args).2.1) ∧
    (Output.debug f.name
        (((kw.timer.getD dflt) 1 - (kw.timer.getD dflt) 0) *
          kw.factor.getD 1)).render =
      "function " ++ f.name ++ " execution time: " ++
        fmt3 (((kw.timer.getD dflt) 1 - (kw.timer.getD dflt) 0) *
          kw.factor.getD 1) ∧
    (wrapped dflt (PyVal.none_ : PyVal A B E) kw f args).2.1 =
      [Output.printed ("function " ++ f.name ++ " execution time: " ++
        fmt3 (((kw.timer.getD dflt) 1 - (kw.timer.getD dflt) 0) *
          kw.factor.getD 1) ++ " ")] := by
  have hlog := wrapped_ok dflt (PyVal.logger : PyVal A B E) kw f args b hf
  have hnone := wrapped_ok dflt (PyVal.none_ : PyVal A B E) kw f args b hf
  refine ⟨by rw [hlog], ?_, rfl, by rw [hnone]⟩
  intro s hs
  rw [hlog] at hs
  simp at hs

theorem report_routing_wit :
    (wrapped c25 (PyVal.logger : PyVal Unit Unit Unit) ⟨some c25, some 1⟩
        noopF ()).2.1 =
      [Output.debug noopF.name ((c25 1 - c25 0) * 1)] ∧
    (Output.printed "x" ∉
      (wrapped c25 (PyVal.logger : PyVal Unit Unit Unit) ⟨some c25, some 1⟩
        noopF ()).2.1) ∧
    (Output.debug noopF.name ((c25 1 - c25 0) * 1)).render =
      "function " ++ noopF.name ++ " execution time: " ++
        fmt3 ((c25 1 - c25 0) * 1) := by
  have h := report_routing c25 ⟨some c25, some 1⟩ noopF () () rfl
  exact ⟨h.1, h.2.1 "x", h.2.2.1⟩

/-- C7: the decorator's argument disambiguation — if exactly one leftover
positional argument was supplied and it is callable, it is treated as the
target callable and wrapped immediately; otherwise the leftover positional
and keyword arguments are stored in the returned closure, a factory
awaiting the target callable. -/
theorem timer_dispatch {A B E : Type} (logger : PyVal A B E)
    (fofa : List (PyVal A B E)) (kw : TimerKwargs) :
    (∀ f : PyFunc A B E, fofa = [PyVal.func f] →
      timer logger fofa kw = .wrapped (wrapped_f logger kw f)) ∧
    ((∀ f : PyFunc A B E, fofa ≠ [PyVal.func f]) →
      timer logger fofa kw = .factory logger fofa kw) := by
  constructor
  · rintro f rfl
    rfl
  · intro hne
    rcases fofa with _ | ⟨x, _ | ⟨y, rest⟩⟩
    · rfl
    · cases x with
      | func f => exact absurd rfl (hne f)
      | logger => rfl
      | none_ => rfl
    · cases x <;> rfl

theorem timer_dispatch_wit :
    timer (PyVal.logger : PyVal ℚ ℚ String) [PyVal.func demoF] ⟨none, none⟩ =
      .wrapped (wrapped_f PyVal.logger ⟨none, none⟩ demoF) ∧
    timer (PyVal.logger : PyVal ℚ ℚ String) [] ⟨none, none⟩ =
      .factory PyVal.logger [] ⟨none, none⟩ :=
  ⟨(timer_dispatch PyVal.logger [PyVal.func demoF] ⟨none, none⟩).1 demoF rfl,
   (timer_dispatch PyVal.logger [] ⟨none, none⟩).2
     (fun f h => List.noConfusion h)⟩
